import Mathlib

/-!
Verification of the container-id copy fragment of the datadog-agent
repository (src/pkg/security/ebpf/c/container.h) against its
natural-language specification, together with a spec-modelled fragment
of the Ring Transport publish path.

The C fragment is:

  static __attribute__((always_inline)) void
  copy_container_id(const char src[CONTAINER_ID_LEN], char dst[CONTAINER_ID_LEN]) {
      __builtin_memmove(dst, src, CONTAINER_ID_LEN);
  }

We model byte memory as a total function from addresses (Nat) to bytes
(Fin 256).  `__builtin_memmove` is modelled by its defining semantics:
the destination window receives the bytes the source window held in the
PRE-call state (memmove copies as if through a temporary buffer, which
is exactly what makes it overlap-safe), and every address outside the
destination window is unchanged.  The value of the compile-time macro
CONTAINER_ID_LEN is defined outside this fragment, so all definitions
and theorems are parameterised by it.
-/

/-- A byte value, as stored in one cell of C `char` memory. -/
abbrev Byte : Type := Fin 256

/-- Byte-addressed memory: a total map from addresses to bytes. -/
abbrev Mem : Type := Nat → Byte

/-- Semantics of `__builtin_memmove(dst, src, n)` on a memory state:
the `n`-byte destination window receives the bytes the source window
held before the call (overlap-safe, as if via a temporary buffer);
every other address keeps its previous value. -/
def memmove (dst src n : Nat) (mem : Mem) : Mem :=
  fun a => if dst ≤ a ∧ a < dst + n then mem (src + (a - dst)) else mem a

/-- `copy_container_id(src, dst)` from src/pkg/security/ebpf/c/container.h:
`__builtin_memmove(dst, src, CONTAINER_ID_LEN)`.  The first argument is
the compile-time constant CONTAINER_ID_LEN, whose value is defined
outside the fragment. -/
def copy_container_id (CONTAINER_ID_LEN src dst : Nat) (mem : Mem) : Mem :=
  memmove dst src CONTAINER_ID_LEN mem

/-- A single byte store `*a = v`, used to model a caller mutating a
buffer after the copy. -/
def store (a : Nat) (v : Byte) (mem : Mem) : Mem :=
  fun x => if x = a then v else mem x

/-- A concrete memory used in witnesses. -/
def mem0 : Mem :=
  fun a => ⟨a % 256, Nat.mod_lt a (by norm_num)⟩

/-- A second concrete memory used in witnesses: agrees with `mem0` on
addresses below 4 and differs above. -/
def mem1 : Mem :=
  fun a => if a < 4 then ⟨a % 256, Nat.mod_lt a (by norm_num)⟩ else ⟨7, by norm_num⟩

/-- C1: after `copy_container_id`, every byte of the destination window
equals the byte the source window held before the call. -/
theorem copy_container_id_copies_src (n src dst i : Nat) (mem : Mem)
    (hi : i < n) :
    copy_container_id n src dst mem (dst + i) = mem (src + i) := by
  show (if dst ≤ dst + i ∧ dst + i < dst + n then mem (src + (dst + i - dst)) else mem (dst + i))
      = mem (src + i)
  rw [if_pos ⟨Nat.le_add_right dst i, by omega⟩]
  congr 1
  omega

/-- C1 witness. -/
theorem copy_container_id_copies_src_witness :
    2 < 64 ∧ copy_container_id 64 0 100 mem0 (100 + 2) = mem0 (0 + 2) :=
  ⟨by decide, copy_container_id_copies_src 64 0 100 2 mem0 (by decide)⟩

/-- C2: even when the fixed-width source and destination regions
overlap at some offset, every byte of the destination window after the
call equals the byte the source window held before the call. -/
theorem copy_container_id_overlap_safe (n src dst i : Nat) (mem : Mem)
    (hov : dst < src + n ∧ src < dst + n) (hi : i < n) :
    copy_container_id n src dst mem (dst + i) = mem (src + i) := by
  show (if dst ≤ dst + i ∧ dst + i < dst + n then mem (src + (dst + i - dst)) else mem (dst + i))
      = mem (src + i)
  rw [if_pos ⟨Nat.le_add_right dst i, by omega⟩]
  congr 1
  omega

/-- C2 witness: half-overlapping windows (src = 0, dst = 32, n = 64). -/
theorem copy_container_id_overlap_safe_witness :
    ((32 < 0 + 64 ∧ 0 < 32 + 64) ∧ 5 < 64) ∧
      copy_container_id 64 0 32 mem0 (32 + 5) = mem0 (0 + 5) :=
  ⟨by decide, copy_container_id_overlap_safe 64 0 32 5 mem0 (by decide) (by decide)⟩

/-- C3: the call writes only the destination window: every address
outside dst[0..CONTAINER_ID_LEN) holds exactly the byte it held before
the call. -/
theorem copy_container_id_frame (n src dst a : Nat) (mem : Mem)
    (ha : ¬ (dst ≤ a ∧ a < dst + n)) :
    copy_container_id n src dst mem a = mem a :=
  if_neg ha

/-- C3 witness: an address just past the destination window. -/
theorem copy_container_id_frame_witness :
    (¬ (100 ≤ 164 ∧ 164 < 100 + 64)) ∧
      copy_container_id 64 0 100 mem0 164 = mem0 164 :=
  ⟨by decide, copy_container_id_frame 64 0 100 164 mem0 (by decide)⟩

/-- C4: noninterference: the post-call destination contents depend only
on the source window: two pre-call memories that agree on
src[0..CONTAINER_ID_LEN) yield identical destination contents. -/
theorem copy_container_id_noninterference (n src dst : Nat) (memA memB : Mem)
    (hagree : ∀ i, i < n → memA (src + i) = memB (src + i))
    (i : Nat) (hi : i < n) :
    copy_container_id n src dst memA (dst + i) =
      copy_container_id n src dst memB (dst + i) := by
  rw [copy_container_id_copies_src n src dst i memA hi,
    copy_container_id_copies_src n src dst i memB hi]
  exact hagree i hi

/-- C4 witness: `mem0` and `mem1` agree on addresses 0..3 but differ at
address 9; the destinations nevertheless agree. -/
theorem copy_container_id_noninterference_witness :
    ((∀ i, i < 4 → mem0 (0 + i) = mem1 (0 + i)) ∧ 2 < 4 ∧ mem0 9 ≠ mem1 9) ∧
      copy_container_id 4 0 100 mem0 (100 + 2) =
        copy_container_id 4 0 100 mem1 (100 + 2) :=
  ⟨by decide,
    copy_container_id_noninterference 4 0 100 mem0 mem1 (by decide) 2 (by decide)⟩

/-- C5: independent storage: for disjoint regions, mutating any byte of
the source buffer after the call leaves every byte of the destination
window unchanged. -/
theorem copy_container_id_independent_storage (n src dst a : Nat) (v : Byte)
    (mem : Mem)
    (hdisj : dst + n ≤ src ∨ src + n ≤ dst)
    (ha : src ≤ a ∧ a < src + n)
    (i : Nat) (hi : i < n) :
    store a v (copy_container_id n src dst mem) (dst + i) =
      copy_container_id n src dst mem (dst + i) := by
  show (if dst + i = a then v else copy_container_id n src dst mem (dst + i))
      = copy_container_id n src dst mem (dst + i)
  rw [if_neg (by omega)]

/-- C5 witness: disjoint windows, overwrite a source byte after the
copy. -/
theorem copy_container_id_independent_storage_witness :
    ((100 + 64 ≤ 200 ∨ 200 + 64 ≤ 100) ∧ (200 ≤ 203 ∧ 203 < 200 + 64) ∧ 3 < 64) ∧
      store 203 ⟨0, by norm_num⟩ (copy_container_id 64 200 100 mem0) (100 + 3) =
        copy_container_id 64 200 100 mem0 (100 + 3) :=
  ⟨by decide,
    copy_container_id_independent_storage 64 200 100 203 ⟨0, by norm_num⟩ mem0
      (by decide) (by decide) 3 (by decide)⟩

/-- C8: idempotence on disjoint regions: running the copy twice yields
exactly the memory state of running it once. -/
theorem copy_container_id_idempotent (n src dst : Nat) (mem : Mem)
    (hdisj : dst + n ≤ src ∨ src + n ≤ dst) :
    copy_container_id n src dst (copy_container_id n src dst mem) =
      copy_container_id n src dst mem := by
  funext x
  show (if dst ≤ x ∧ x < dst + n
        then copy_container_id n src dst mem (src + (x - dst))
        else copy_container_id n src dst mem x)
      = copy_container_id n src dst mem x
  by_cases h : dst ≤ x ∧ x < dst + n
  · rw [if_pos h]
    rw [copy_container_id_frame n src dst (src + (x - dst)) mem (by omega)]
    show mem (src + (x - dst))
        = (if dst ≤ x ∧ x < dst + n then mem (src + (x - dst)) else mem x)
    rw [if_pos h]
  · exact if_neg h

/-- C8 witness: disjoint windows, double copy equals single copy. -/
theorem copy_container_id_idempotent_witness :
    ((100 + 4 ≤ 200 ∨ 200 + 4 ≤ 100)) ∧
      copy_container_id 4 200 100 (copy_container_id 4 200 100 mem0) =
        copy_container_id 4 200 100 mem0 :=
  ⟨by decide, copy_container_id_idempotent 4 200 100 mem0 (by decide)⟩

/-- C9: composition through an intermediate buffer: for pairwise
disjoint windows a, b, c, copying a→b then b→c leaves the c window
equal to the bytes a held before the first call. -/
theorem copy_container_id_compose (n a b c i : Nat) (mem : Mem)
    (hab : a + n ≤ b ∨ b + n ≤ a)
    (hbc : b + n ≤ c ∨ c + n ≤ b)
    (hac : a + n ≤ c ∨ c + n ≤ a)
    (hi : i < n) :
    copy_container_id n b c (copy_container_id n a b mem) (c + i) = mem (a + i) := by
  rw [copy_container_id_copies_src n b c i (copy_container_id n a b mem) hi]
  exact copy_container_id_copies_src n a b i mem hi

/-- C9 witness: three pairwise-disjoint windows. -/
theorem copy_container_id_compose_witness :
    ((0 + 4 ≤ 10 ∨ 10 + 4 ≤ 0) ∧ (10 + 4 ≤ 20 ∨ 20 + 4 ≤ 10) ∧
      (0 + 4 ≤ 20 ∨ 20 + 4 ≤ 0) ∧ 1 < 4) ∧
      copy_container_id 4 10 20 (copy_container_id 4 0 10 mem0) (20 + 1) = mem0 (0 + 1) :=
  ⟨by decide,
    copy_container_id_compose 4 0 10 20 1 mem0 (by decide) (by decide) (by decide)
      (by decide)⟩

/-- C7: self-copy is the identity: copying with destination equal to
source leaves all memory unchanged. -/
theorem copy_container_id_self (n src : Nat) (mem : Mem) :
    copy_container_id n src src mem = mem := by
  funext a
  show (if src ≤ a ∧ a < src + n then mem (src + (a - src)) else mem a) = mem a
  by_cases h : src ≤ a ∧ a < src + n
  · rw [if_pos h]
    congr 1
    omega
  · exact if_neg h

/-!
Ring Transport (spec §4.2).  The publish path's code is not part of the
available fragment, so it is modelled from the specification.
-/

/-- Modelled from the spec: the per-producer state of the Ring
Transport, whose implementation is not part of the available fragment.
Spec §4.2: "one bounded, fixed-capacity, single-producer/single-consumer
... circular buffer per producer", together with "a monotonically
increasing drop counter for that producer".  The buffer is a FIFO list
bounded by `capacity`. -/
structure ProducerBuffer (α : Type) where
  capacity : Nat
  buf : List α
  dropped : Nat

/-- Outcome of a publish call (spec §4.2: `publish(record) ->
{accepted, dropped}`). -/
inductive PublishResult : Type
  | accepted : PublishResult
  | dropped : PublishResult
deriving DecidableEq

/-- Modelled from the spec: `publish` of the Ring Transport, whose
implementation is not part of the available fragment.  Spec §4.2:
"non-blocking; if the buffer for the calling producer is full, the
record is dropped and a monotonically increasing drop counter for that
producer is incremented.  The producer never waits."  Modelled as a
total function (totality is the shallow embedding of "never blocks"):
on a full buffer the record is discarded and the drop counter
incremented; otherwise the record is appended in FIFO order. -/
def publish {α : Type} (rb : ProducerBuffer α) (record : α) :
    PublishResult × ProducerBuffer α :=
  if rb.buf.length < rb.capacity then
    (PublishResult.accepted, { rb with buf := rb.buf ++ [record] })
  else
    (PublishResult.dropped, { rb with dropped := rb.dropped + 1 })

/-- C6: `publish` is a total function of the producer state (it never
waits), its drop counter never decreases, and on a full buffer the
record is dropped, the buffer is left unchanged and the drop counter is
incremented by exactly one. -/
theorem publish_never_blocks {α : Type} (rb : ProducerBuffer α) (record : α)
    (hfull : rb.capacity ≤ rb.buf.length) :
    (publish rb record).1 = PublishResult.dropped ∧
      (publish rb record).2.buf = rb.buf ∧
      (publish rb record).2.dropped = rb.dropped + 1 ∧
      rb.dropped ≤ (publish rb record).2.dropped := by
  have h : ¬ rb.buf.length < rb.capacity := by omega
  unfold publish
  rw [if_neg h]
  exact ⟨rfl, rfl, rfl, Nat.le_succ _⟩

/-- C6 witness: a full buffer of capacity 1 drops the published record
and counts the drop. -/
theorem publish_never_blocks_witness :
    ((⟨1, [7], 0⟩ : ProducerBuffer Nat).capacity ≤
        (⟨1, [7], 0⟩ : ProducerBuffer Nat).buf.length) ∧
      (publish (⟨1, [7], 0⟩ : ProducerBuffer Nat) 9).1 = PublishResult.dropped ∧
      (publish (⟨1, [7], 0⟩ : ProducerBuffer Nat) 9).2.buf = [7] ∧
      (publish (⟨1, [7], 0⟩ : ProducerBuffer Nat) 9).2.dropped = 0 + 1 ∧
      (0 : Nat) ≤ (publish (⟨1, [7], 0⟩ : ProducerBuffer Nat) 9).2.dropped :=
  ⟨by decide, publish_never_blocks (⟨1, [7], 0⟩ : ProducerBuffer Nat) 9 (by decide)⟩
